import Mathlib

/-!
# Verification of the blnk-go HTTP call layer

A shallow embedding, in Lean 4, of the client construction (`NewClient`),
request building (`NewRequest`), retry execution (`CallWithRetry`) and
response decoding (`DecodeResponse`) functions of the `blnkgo` package,
together with theorems settling the specification claims about them.

Modelling conventions:
* A Go `*string` / `*url.URL` (a possibly-nil pointer) is an `Option`;
  a `*url.URL` is represented by the string its `String()` method renders.
* Payload values (the `opt interface\x7b\x7d` argument) are modelled as flat
  association lists of string fields, which covers the struct payloads this
  repository passes.  Percent-escaping of keys and values performed by
  `url.Values.Encode` is not modelled; it does not affect emptiness or
  membership of the encoded query.
* A Go `panic` is modelled as an explicit result constructor, distinct from
  an ordinary returned error.
* Durations are in seconds.
-/

set_option autoImplicit false

namespace BlnkGo

/-- Client options (`Options` in the source): retry count and timeout.
The logger capability is an external collaborator and carries no state
relevant to the claims, so it is not represented. -/
structure Options where
  retryCount : Int
  timeout : Int
  deriving Repr, DecidableEq

/-- `DefaultOptions` from the source: retry count 3, timeout 10 seconds. -/
def DefaultOptions : Options :=
  { retryCount := 3, timeout := 10 }

/-- The `Client` struct: optional API key, possibly-nil base URL (rendered as
a string), options, and the inner `http.Client`'s timeout. -/
structure Client where
  apiKey : Option String
  baseURL : Option String
  options : Options
  httpTimeout : Int
  deriving Repr, DecidableEq

/-- A configuration mutator (`ClientOption` in the source). -/
def ClientOption : Type := Client → Client

/-- Outcome of `NewClient`: either a constructed client or a Go `panic`
carrying the panic message. -/
inductive NewClientResult where
  | ok (c : Client)
  | panicked (msg : String)

/-- The option-application loop of `NewClient`: each mutator is applied, and
after each application the inner HTTP client timeout is synchronized with
`Options.Timeout` whenever the latter is nonzero. -/
def applyClientOptions : List ClientOption → Client → Client
  | [], c => c
  | opt :: rest, c =>
      let c1 := opt c
      let c2 := if c1.options.timeout ≠ 0 then { c1 with httpTimeout := c1.options.timeout } else c1
      applyClientOptions rest c2

/-- `NewClient` from the source: builds the client with default options and an
inner HTTP client timeout of 10 seconds, then — if the base URL is nil or
renders to the empty string — panics with `base url is required` (it does NOT
return an error value, despite the inline comment saying "return error");
otherwise applies the option mutators and returns the client. -/
def NewClient (baseURL : Option String) (apiKey : Option String)
    (opts : List ClientOption) : NewClientResult :=
  let client : Client :=
    { apiKey := apiKey, baseURL := baseURL, options := DefaultOptions, httpTimeout := 10 }
  if baseURL = none ∨ baseURL = some "" then
    .panicked "base url is required"
  else
    .ok (applyClientOptions opts client)

/-! ## Request building (`NewRequest`) -/

/-- Characters after the first question mark of a character list (empty when
there is none). -/
def rawQueryChars : List Char → List Char
  | [] => []
  | c :: rest => if c = '?' then rest else rawQueryChars rest

/-- The query component `url.Parse` extracts from a URL string: everything
after the first question mark (empty when there is none). -/
def rawQueryOf (s : String) : String :=
  ⟨rawQueryChars s.data⟩

/-- Characters before the first question mark of a character list. -/
def pathChars : List Char → List Char
  | [] => []
  | c :: rest => if c = '?' then [] else c :: pathChars rest

/-- The non-query component of a URL string: everything before the first
question mark. -/
def pathOf (s : String) : String :=
  ⟨pathChars s.data⟩

/-- Lexicographic comparison of character lists (the byte order
`sort.Strings` uses inside `url.Values.Encode`). -/
def charListLe : List Char → List Char → Bool
  | [], _ => true
  | _ :: _, [] => false
  | a :: as, b :: bs => if a = b then charListLe as bs else decide (a.toNat < b.toNat)

/-- Key order used when encoding query values. -/
def keyLe (s t : String) : Bool :=
  charListLe s.data t.data

/-- Insert a key/value pair into a list sorted by key (helper for the
key-sorting performed by `url.Values.Encode`). -/
def insertByKey (kv : String × String) : List (String × String) → List (String × String)
  | [] => [kv]
  | kv1 :: rest =>
      if keyLe kv.1 kv1.1 then kv :: kv1 :: rest else kv1 :: insertByKey kv rest

/-- Sort an association list by key (insertion sort), as `url.Values.Encode`
sorts the encoded keys. -/
def sortByKey : List (String × String) → List (String × String)
  | [] => []
  | kv :: rest => insertByKey kv (sortByKey rest)

/-- Render sorted key/value pairs as `k=v` joined by `&`. -/
def renderPairs : List (String × String) → String
  | [] => ""
  | [kv] => kv.1 ++ "=" ++ kv.2
  | kv :: rest => kv.1 ++ "=" ++ kv.2 ++ "&" ++ renderPairs rest

/-- `query.Values(opt).Encode()` applied to a payload: the fields, sorted by
key and rendered as a query string. -/
def urlValuesEncode (p : List (String × String)) : String :=
  renderPairs (sortByKey p)

/-- Render payload fields as the members of a JSON object. -/
def renderJsonFields : List (String × String) → String
  | [] => ""
  | [kv] => "\"" ++ kv.1 ++ "\":\"" ++ kv.2 ++ "\""
  | kv :: rest => "\"" ++ kv.1 ++ "\":\"" ++ kv.2 ++ "\"," ++ renderJsonFields rest

/-- `json.NewEncoder(bodyBuf).Encode(opt)` applied to a payload: a JSON
object followed by the newline the encoder appends. -/
def jsonEncode (p : List (String × String)) : String :=
  "\x7b" ++ renderJsonFields p ++ "\x7d\n"

/-- A built HTTP request: method, path component, raw query, optional body,
headers in insertion order. -/
structure Request where
  method : String
  path : String
  query : String
  body : Option String
  headers : List (String × String)
  deriving Repr, DecidableEq

/-- `NewRequest` from the source.  The URL is `c.BaseURL.String() + endpoint`
(a nil base URL is rendered as the empty string; `NewClient` guarantees
clients have one).  If the method is GET and the payload is non-nil, the
payload is encoded into the query, replacing any query the URL already had;
if the method is not GET and the payload is non-nil, the payload is JSON
encoded as the body.  The `X-Blnk-Key` header is added exactly when an API
key is configured, and `Content-Type: application/json` is always added.
The source's error returns (URL parse, query encode and JSON encode
failures) cannot occur for the payloads modelled here, so the function is
total. -/
def NewRequest (c : Client) (endpoint method : String)
    (opt : Option (List (String × String))) : Request :=
  let full := (c.baseURL.getD "") ++ endpoint
  let q : String :=
    match opt with
    | some p => if method = "GET" then urlValuesEncode p else rawQueryOf full
    | none => rawQueryOf full
  let body : Option String :=
    match opt with
    | some p => if method = "GET" then none else some (jsonEncode p)
    | none => none
  let headers : List (String × String) :=
    (match c.apiKey with
     | some k => [("X-Blnk-Key", k)]
     | none => []) ++ [("Content-Type", "application/json")]
  { method := method, path := pathOf full, query := q, body := body, headers := headers }

/-! ## Response checking and decoding -/

/-- Modelled from the spec: `CheckResponse` is called by `DecodeResponse` but
its definition is not part of the call-layer sources; per §4.4 it "checks the
response status is in the success range (2xx); any other status yields a
DecodeError carrying the status".  `true` exactly on 2xx statuses. -/
def isSuccessStatus (status : Nat) : Bool :=
  200 ≤ status && status < 300

/-- An HTTP response as seen by `DecodeResponse`: status code and raw body. -/
structure HTTPResponse where
  status : Nat
  body : String
  deriving Repr, DecidableEq

/-- Errors `DecodeResponse` can return: a status-based error from
`CheckResponse` (modelled from the spec, carrying the status) or a JSON
decoding error. -/
inductive DecodeErr where
  | statusErr (status : Nat)
  | jsonErr
  deriving Repr, DecidableEq

/-- `DecodeResponse` from the source, for a caller-supplied target of type `α`
with JSON decoder `dec`: first `CheckResponse` (modelled from the spec) is
consulted; on a non-2xx status the status error is returned and the target is
left untouched.  Only then is the body decoded into the target; a decoder
failure returns the JSON error.  The result pairs the target value after the
call with the returned error, if any. -/
def DecodeResponse {α : Type} (dec : String → Option α)
    (resp : HTTPResponse) (v : α) : α × Option DecodeErr :=
  if isSuccessStatus resp.status then
    match dec resp.body with
    | some v1 => (v1, none)
    | none => (v, some .jsonErr)
  else
    (v, some (.statusErr resp.status))

/-! ## The retry executor (`CallWithRetry`)

`CallWithRetry` is driven by its environment: what the transport does on each
attempt.  An attempt either fails at transport level (`http.Client.Do`
returns an error and a nil response) or yields a response with some status
whose body either decodes into the target or does not.  The executor is
modelled as a trace-producing function so that attempt counts, sleeps and
body closes are all observable. -/

/-- The transport outcome of one attempt. -/
inductive Outcome where
  | transportError
  | response (status : Nat) (decodable : Bool)
  deriving Repr, DecidableEq

/-- An outcome the retry loop classifies as transient (logged, slept on, and
retried): a transport-level error or a status of 500 or above. -/
def Outcome.isTransient : Outcome → Bool
  | .transportError => true
  | .response status _ => 500 ≤ status

/-- A response obtained during an execution, identified by the index of the
attempt that obtained it, with its status. -/
structure TraceResponse where
  attempt : Nat
  status : Nat
  deriving Repr, DecidableEq

/-- How an execution of `CallWithRetry` ends. -/
inductive CallResult where
  /-- `return resp, nil`: success after a decodable 2xx response. -/
  | ok (resp : TraceResponse)
  /-- `return resp, err`: permanent failure (non-2xx below 500, or a 2xx
  body that does not decode). -/
  | permFail (resp : TraceResponse)
  /-- `return nil, errors.New("max retry count exceeded")` after the loop,
  with the deferred `resp.Body.Close()` run on the last response. -/
  | exhausted
  /-- The deferred `resp.Body.Close()` dereferences a nil response (every
  attempt — in particular the last — failed at transport level, or the loop
  never ran), so the function panics instead of returning. -/
  | nilBodyPanic
  deriving Repr, DecidableEq

/-- The observable trace of one `CallWithRetry` execution: number of attempts
performed, number of 2-second sleeps, attempt indices that yielded a response
(a body was obtained), attempt indices whose response body was closed, and
the final result. -/
structure Trace where
  attempts : Nat
  sleeps : Nat
  obtained : List Nat
  closed : List Nat
  result : CallResult
  deriving Repr, DecidableEq

/-- The retry loop of `CallWithRetry`, from attempt `i` with `remaining`
iterations left.  `resp` is the current value of the `resp` variable (the
last `http.Client.Do` result: `none` after a transport error).  On a
transport error or a 5xx response the loop sleeps and continues; otherwise
`DecodeResponse` either fails permanently or succeeds, and the function
returns without closing the body.  When the loop runs out, the deferred
`resp.Body.Close()` closes the last response's body — or panics on a nil
dereference if `resp` is nil. -/
def runFrom (env : Nat → Outcome) : Nat → Nat → Option TraceResponse →
    Nat → Nat → List Nat → List Nat → Trace
  | _, 0, resp, attempts, sleeps, obtained, closed =>
      match resp with
      | none => ⟨attempts, sleeps, obtained, closed, .nilBodyPanic⟩
      | some r => ⟨attempts, sleeps, obtained, closed ++ [r.attempt], .exhausted⟩
  | i, remaining + 1, _, attempts, sleeps, obtained, closed =>
      match env i with
      | .transportError =>
          runFrom env (i + 1) remaining none (attempts + 1) (sleeps + 1) obtained closed
      | .response status decodable =>
          let r : TraceResponse := ⟨i, status⟩
          if 500 ≤ status then
            runFrom env (i + 1) remaining (some r) (attempts + 1) (sleeps + 1)
              (obtained ++ [i]) closed
          else if isSuccessStatus status then
            if decodable then
              ⟨attempts + 1, sleeps, obtained ++ [i], closed, .ok r⟩
            else
              ⟨attempts + 1, sleeps, obtained ++ [i], closed, .permFail r⟩
          else
            ⟨attempts + 1, sleeps, obtained ++ [i], closed, .permFail r⟩

/-- `CallWithRetry` from the source, as a trace over the transport outcomes
`env` (attempt `i` behaves as `env i`).  The loop runs for
`i := 0; i < retryCount; i++`, so a nonpositive retry count performs no
attempt.  `NewRequest` failures cannot occur for the payloads modelled here
(see `NewRequest`), so the build-error early return is not reachable. -/
def CallWithRetry (retryCount : Int) (env : Nat → Outcome) : Trace :=
  runFrom env 0 retryCount.toNat none 0 0 [] []

/-! ## Helper lemmas about query and body encodings -/

theorem mem_insertByKey (x kv : String × String) (l : List (String × String)) :
    x ∈ insertByKey kv l ↔ x = kv ∨ x ∈ l := by
  induction l with
  | nil => simp [insertByKey]
  | cons kv1 rest ih =>
      simp only [insertByKey]
      split
      · simp [List.mem_cons]
      · simp only [List.mem_cons, ih]
        tauto

theorem mem_sortByKey (x : String × String) (l : List (String × String)) :
    x ∈ sortByKey l ↔ x ∈ l := by
  induction l with
  | nil => simp [sortByKey]
  | cons kv rest ih => simp [sortByKey, mem_insertByKey, ih]

theorem insertByKey_ne_nil (kv : String × String) (l : List (String × String)) :
    insertByKey kv l ≠ [] := by
  cases l with
  | nil => simp [insertByKey]
  | cons kv1 rest =>
      simp only [insertByKey]
      split <;> simp

theorem ne_empty_of_length_pos (s : String) (h : 0 < s.length) : s ≠ "" := by
  intro h2
  rw [h2] at h
  exact absurd h (by decide)

theorem renderPairs_length_pos (l : List (String × String)) (h : l ≠ []) :
    0 < (renderPairs l).length := by
  have h1 : ("=").length = 1 := rfl
  match l with
  | [kv] =>
      simp only [renderPairs, String.length_append, h1]
      omega
  | kv :: kv1 :: rest =>
      simp only [renderPairs, String.length_append, h1]
      omega

theorem urlValuesEncode_ne_empty (p : List (String × String)) (h : p ≠ []) :
    urlValuesEncode p ≠ "" := by
  cases p with
  | nil => exact absurd rfl h
  | cons kv rest =>
      apply ne_empty_of_length_pos
      apply renderPairs_length_pos
      simp only [sortByKey]
      exact insertByKey_ne_nil kv (sortByKey rest)

theorem jsonEncode_ne_empty (p : List (String × String)) : jsonEncode p ≠ "" := by
  apply ne_empty_of_length_pos
  have h1 : ("\x7b").length = 1 := rfl
  have h2 : ("\x7d\n").length = 2 := rfl
  simp only [jsonEncode, String.length_append, h1, h2]
  omega

/-! ## Claims about `NewRequest` -/

/-- C6: for a GET request with a non-nil payload, the built request has no
body, its query string is exactly the payload's fields encoded as query
parameters (the encoded pair list carries precisely the payload's fields),
and the query string is non-empty whenever the payload is non-empty. -/
theorem C6_get_payload_encoded_as_query (c : Client) (endpoint : String)
    (p : List (String × String)) :
    (NewRequest c endpoint "GET" (some p)).body = none ∧
    (NewRequest c endpoint "GET" (some p)).query = urlValuesEncode p ∧
    (∀ kv, kv ∈ sortByKey p ↔ kv ∈ p) ∧
    (p ≠ [] → (NewRequest c endpoint "GET" (some p)).query ≠ "") := by
  refine ⟨by simp [NewRequest], by simp [NewRequest], fun kv => mem_sortByKey kv p, fun h => ?_⟩
  simp only [NewRequest, if_pos rfl]
  exact urlValuesEncode_ne_empty p h

/-- Witness for C6 at a concrete client and one-field payload. -/
theorem C6_witness :
    (NewRequest ⟨none, some "http://x/", DefaultOptions, 10⟩ "y" "GET"
      (some [("a", "1")])).body = none ∧
    (NewRequest ⟨none, some "http://x/", DefaultOptions, 10⟩ "y" "GET"
      (some [("a", "1")])).query ≠ "" :=
  ⟨(C6_get_payload_encoded_as_query ⟨none, some "http://x/", DefaultOptions, 10⟩ "y"
      [("a", "1")]).1,
   (C6_get_payload_encoded_as_query ⟨none, some "http://x/", DefaultOptions, 10⟩ "y"
      [("a", "1")]).2.2.2 (by decide)⟩

/-- C7: for a non-GET request with a non-nil payload, the built request's
body is the JSON-encoded payload (which is never the empty string), and no
query parameters are added: the query string is exactly the query component
already present in the combined base-plus-endpoint URL string. -/
theorem C7_nonget_payload_encoded_as_body (c : Client) (endpoint method : String)
    (p : List (String × String)) (h : method ≠ "GET") :
    (NewRequest c endpoint method (some p)).body = some (jsonEncode p) ∧
    jsonEncode p ≠ "" ∧
    (NewRequest c endpoint method (some p)).query =
      rawQueryOf ((c.baseURL.getD "") ++ endpoint) := by
  refine ⟨?_, jsonEncode_ne_empty p, ?_⟩ <;> simp [NewRequest, if_neg h]

/-- Witness for C7 at a concrete client, POST method and one-field payload. -/
theorem C7_witness :
    (NewRequest ⟨none, some "http://x/", DefaultOptions, 10⟩ "y" "POST"
      (some [("a", "1")])).body = some (jsonEncode [("a", "1")]) ∧
    jsonEncode [("a", "1")] ≠ "" ∧
    (NewRequest ⟨none, some "http://x/", DefaultOptions, 10⟩ "y" "POST"
      (some [("a", "1")])).query = rawQueryOf ("http://x/" ++ "y") :=
  C7_nonget_payload_encoded_as_body ⟨none, some "http://x/", DefaultOptions, 10⟩ "y" "POST"
    [("a", "1")] (by decide)

/-- C8: every built request carries `Content-Type: application/json`, and it
carries `X-Blnk-Key: v` exactly when the client's API key is configured
as `v`. -/
theorem C8_headers (c : Client) (endpoint method : String)
    (opt : Option (List (String × String))) :
    ("Content-Type", "application/json") ∈ (NewRequest c endpoint method opt).headers ∧
    ∀ v : String,
      (("X-Blnk-Key", v) ∈ (NewRequest c endpoint method opt).headers ↔ c.apiKey = some v) := by
  cases h : c.apiKey with
  | none =>
      refine ⟨by simp [NewRequest, h], fun v => ?_⟩
      simp [NewRequest, h, Prod.ext_iff]
  | some k =>
      refine ⟨by simp [NewRequest, h], fun v => ?_⟩
      simp [NewRequest, h, Prod.ext_iff]
      exact eq_comm

/-- C10 counterexample: with a nil payload but an endpoint that itself
carries a query component, the built request's query string is not empty
(it is the endpoint's own query), refuting "no body and an empty query
string" at this input. -/
theorem C10_counterexample :
    ¬ ((NewRequest ⟨none, some "http://x/", DefaultOptions, 10⟩ "y?a=b" "POST" none).body = none ∧
       (NewRequest ⟨none, some "http://x/", DefaultOptions, 10⟩ "y?a=b" "POST" none).query = "") := by
  decide

/-- C10 (amended): for every method, when the payload is nil the built
request has no body and no query parameters are added — the query string is
exactly the query component already present in the combined
base-plus-endpoint URL string (so it is empty whenever that string contains
no question mark). -/
theorem C10_nil_payload_no_body_no_added_query (c : Client) (endpoint method : String) :
    (NewRequest c endpoint method none).body = none ∧
    (NewRequest c endpoint method none).query =
      rawQueryOf ((c.baseURL.getD "") ++ endpoint) := by
  exact ⟨by simp [NewRequest], by simp [NewRequest]⟩

/-! ## Step lemmas for the retry loop -/

theorem runFrom_transportError (env : Nat → Outcome) (i rem : Nat)
    (resp : Option TraceResponse) (a s : Nat) (o c : List Nat)
    (h : env i = .transportError) :
    runFrom env i (rem + 1) resp a s o c =
      runFrom env (i + 1) rem none (a + 1) (s + 1) o c := by
  simp [runFrom, h]

theorem runFrom_serverFault (env : Nat → Outcome) (i rem : Nat)
    (resp : Option TraceResponse) (a s : Nat) (o c : List Nat)
    (status : Nat) (decodable : Bool)
    (h : env i = .response status decodable) (h5 : 500 ≤ status) :
    runFrom env i (rem + 1) resp a s o c =
      runFrom env (i + 1) rem (some ⟨i, status⟩) (a + 1) (s + 1) (o ++ [i]) c := by
  simp [runFrom, h, if_pos h5]

theorem runFrom_permanent (env : Nat → Outcome) (i rem : Nat)
    (resp : Option TraceResponse) (a s : Nat) (o c : List Nat)
    (status : Nat) (decodable : Bool)
    (h : env i = .response status decodable) (h5 : ¬ 500 ≤ status)
    (hp : isSuccessStatus status = false ∨ decodable = false) :
    runFrom env i (rem + 1) resp a s o c =
      ⟨a + 1, s, o ++ [i], c, .permFail ⟨i, status⟩⟩ := by
  rcases hp with hp | hp
  · simp [runFrom, h, if_neg h5, hp]
  · simp [runFrom, h, if_neg h5, hp]

theorem runFrom_success (env : Nat → Outcome) (i rem : Nat)
    (resp : Option TraceResponse) (a s : Nat) (o c : List Nat)
    (status : Nat)
    (h : env i = .response status true) (h5 : ¬ 500 ≤ status)
    (hs : isSuccessStatus status = true) :
    runFrom env i (rem + 1) resp a s o c =
      ⟨a + 1, s, o ++ [i], c, .ok ⟨i, status⟩⟩ := by
  simp [runFrom, h, if_neg h5, hs]

/-! ## Claims about construction and the retry loop -/

/-- C1: at a missing base address — a nil base URL, likewise one rendering to
the empty string — `NewClient` panics with "base url is required" instead of
returning a recoverable error result.  The panic happens during
construction, before any request is built or attempted. -/
theorem C1_newClient_panics_on_missing_base :
    NewClient none none [] = .panicked "base url is required" ∧
    NewClient (some "") none [] = .panicked "base url is required" :=
  ⟨rfl, rfl⟩

/-- C2: with retry count 3 and every attempt a transient failure, the loop
performs exactly 3 attempts, but the outcome depends on the kind of the last
transient failure: if every attempt (in particular the last) fails at
transport level, the deferred `resp.Body.Close()` dereferences a nil
response and `CallWithRetry` panics instead of returning the retry-exhausted
error; only when the last transient failure is a 5xx response does it return
the "max retry count exceeded" error after exactly 3 attempts. -/
theorem C2_exhaustion_behaviour :
    CallWithRetry 3 (fun _ => .transportError) = ⟨3, 3, [], [], .nilBodyPanic⟩ ∧
    CallWithRetry 3 (fun _ => .response 503 true) = ⟨3, 3, [0, 1, 2], [2], .exhausted⟩ :=
  ⟨rfl, rfl⟩

/-- C3: response bodies are not released once per exit path: on the success
path the single obtained body is never closed, on the permanent-failure path
the body is never closed, and on the exhaustion path only the last of the
three obtained bodies is closed. -/
theorem C3_bodies_not_released :
    ((CallWithRetry 3 (fun _ => .response 200 true)).obtained = [0] ∧
     (CallWithRetry 3 (fun _ => .response 200 true)).closed = []) ∧
    ((CallWithRetry 3 (fun _ => .response 404 true)).obtained = [0] ∧
     (CallWithRetry 3 (fun _ => .response 404 true)).closed = []) ∧
    ((CallWithRetry 3 (fun _ => .response 503 true)).obtained = [0, 1, 2] ∧
     (CallWithRetry 3 (fun _ => .response 503 true)).closed = [2]) :=
  ⟨⟨rfl, rfl⟩, ⟨rfl, rfl⟩, ⟨rfl, rfl⟩⟩

theorem runFrom_permanent_after_transients (env : Nat → Outcome) (k status : Nat)
    (decodable : Bool) :
    ∀ (i rem : Nat) (resp : Option TraceResponse) (a s : Nat) (o c : List Nat),
      k < rem →
      (∀ j, j < k → (env (i + j)).isTransient = true) →
      env (i + k) = .response status decodable →
      ¬ 500 ≤ status →
      (isSuccessStatus status = false ∨ decodable = false) →
      (runFrom env i rem resp a s o c).result = .permFail ⟨i + k, status⟩ ∧
      (runFrom env i rem resp a s o c).attempts = a + (k + 1) := by
  induction k with
  | zero =>
      intro i rem resp a s o c hk hprev hek h5 hp
      obtain ⟨rem1, rfl⟩ : ∃ rem1, rem = rem1 + 1 := ⟨rem - 1, by omega⟩
      rw [runFrom_permanent env i rem1 resp a s o c status decodable
        (by simpa using hek) h5 hp]
      exact ⟨rfl, rfl⟩
  | succ k ih =>
      intro i rem resp a s o c hk hprev hek h5 hp
      obtain ⟨rem1, rfl⟩ : ∃ rem1, rem = rem1 + 1 := ⟨rem - 1, by omega⟩
      have hprev1 : ∀ j, j < k → (env (i + 1 + j)).isTransient = true := by
        intro j hj
        have heq : i + 1 + j = i + (j + 1) := by omega
        rw [heq]
        exact hprev (j + 1) (by omega)
      have hek1 : env (i + 1 + k) = .response status decodable := by
        have heq : i + 1 + k = i + (k + 1) := by omega
        rw [heq]
        exact hek
      have ht : (env i).isTransient = true := by
        have := hprev 0 (by omega)
        simpa using this
      cases he : env i with
      | transportError =>
          rw [runFrom_transportError env i rem1 resp a s o c he]
          obtain ⟨h1, h2⟩ := ih (i + 1) rem1 none (a + 1) (s + 1) o c (by omega) hprev1 hek1 h5 hp
          refine ⟨by rw [h1]; congr 2; omega, by rw [h2]; omega⟩
      | response status1 decodable1 =>
          have h51 : 500 ≤ status1 := by
            rw [he] at ht
            simpa [Outcome.isTransient] using ht
          rw [runFrom_serverFault env i rem1 resp a s o c status1 decodable1 he h51]
          obtain ⟨h1, h2⟩ := ih (i + 1) rem1 (some ⟨i, status1⟩) (a + 1) (s + 1) (o ++ [i]) c
            (by omega) hprev1 hek1 h5 hp
          refine ⟨by rw [h1]; congr 2; omega, by rw [h2]; omega⟩

/-- C4: in every execution whose attempts up to `k` are transient failures
and whose attempt `k` (within the retry budget) yields a response that is
neither a 5xx nor a decodable success — a non-2xx status below 500, or a 2xx
body that does not decode — `CallWithRetry` returns immediately with that
very response as a permanent failure, after exactly `k + 1` attempts; in
particular a 4xx on the first attempt gives exactly one attempt. -/
theorem C4_permanent_response_returns_immediately (retryCount : Int)
    (env : Nat → Outcome) (k status : Nat) (decodable : Bool)
    (hk : k < retryCount.toNat)
    (hprev : ∀ j, j < k → (env j).isTransient = true)
    (hek : env k = .response status decodable)
    (h5 : ¬ 500 ≤ status)
    (hp : isSuccessStatus status = false ∨ decodable = false) :
    (CallWithRetry retryCount env).result = .permFail ⟨k, status⟩ ∧
    (CallWithRetry retryCount env).attempts = k + 1 := by
  have h := runFrom_permanent_after_transients env k status decodable 0 retryCount.toNat
    none 0 0 [] [] hk (by simpa using hprev) (by simpa using hek) h5 hp
  simpa [CallWithRetry] using h

/-- Witness for C4: a 404 on the first of 3 budgeted attempts gives exactly
one attempt and a permanent failure carrying that response. -/
theorem C4_witness :
    (CallWithRetry 3 (fun _ => .response 404 true)).result = .permFail ⟨0, 404⟩ ∧
    (CallWithRetry 3 (fun _ => .response 404 true)).attempts = 0 + 1 :=
  C4_permanent_response_returns_immediately 3 (fun _ => .response 404 true) 0 404 true
    (by decide) (fun j hj => absurd hj (Nat.not_lt_zero j)) rfl (by omega)
    (Or.inl (by decide))

/-- C5 counterexample: with a retry budget of 1 and the single — hence final
— attempt failing transiently (a 500 response), the 2-second delay is still
taken once (`sleeps = 1`) before exhaustion is reported, refuting "after the
final failed attempt, no delay occurs before exhaustion is reported". -/
theorem C5_counterexample :
    CallWithRetry 1 (fun _ => .response 500 true) = ⟨1, 1, [0], [0], .exhausted⟩ :=
  rfl

theorem runFrom_sleeps_eq_attempts (env : Nat → Outcome) :
    ∀ (rem i : Nat) (resp : Option TraceResponse) (a s : Nat) (o c : List Nat),
      a = s →
      ((runFrom env i rem resp a s o c).result = .exhausted ∨
       (runFrom env i rem resp a s o c).result = .nilBodyPanic) →
      (runFrom env i rem resp a s o c).sleeps = (runFrom env i rem resp a s o c).attempts := by
  intro rem
  induction rem with
  | zero =>
      intro i resp a s o c ha _
      cases resp <;> simp [runFrom] <;> omega
  | succ rem ih =>
      intro i resp a s o c ha hres
      cases he : env i with
      | transportError =>
          rw [runFrom_transportError env i rem resp a s o c he] at hres ⊢
          exact ih (i + 1) none (a + 1) (s + 1) o c (by omega) hres
      | response status decodable =>
          by_cases h5 : 500 ≤ status
          · rw [runFrom_serverFault env i rem resp a s o c status decodable he h5] at hres ⊢
            exact ih (i + 1) (some ⟨i, status⟩) (a + 1) (s + 1) (o ++ [i]) c (by omega) hres
          · cases hs : isSuccessStatus status with
            | false =>
                rw [runFrom_permanent env i rem resp a s o c status decodable he h5
                  (Or.inl hs)] at hres
                simp at hres
            | true =>
                cases decodable with
                | false =>
                    rw [runFrom_permanent env i rem resp a s o c status false he h5
                      (Or.inr rfl)] at hres
                    simp at hres
                | true =>
                    rw [runFrom_success env i rem resp a s o c status he h5 hs] at hres
                    simp at hres

/-- C5 (amended): the fixed delay is applied after every transient failure,
including after the final failed attempt: whenever `CallWithRetry` exits
through the end of the loop (exhaustion, or the nil-body panic), the number
of delays taken equals the number of attempts performed — so a delay does
occur between the final failed attempt and the report of exhaustion. -/
theorem C5_delay_after_every_transient_attempt (retryCount : Int) (env : Nat → Outcome)
    (h : (CallWithRetry retryCount env).result = .exhausted ∨
         (CallWithRetry retryCount env).result = .nilBodyPanic) :
    (CallWithRetry retryCount env).sleeps = (CallWithRetry retryCount env).attempts :=
  runFrom_sleeps_eq_attempts env retryCount.toNat 0 none 0 0 [] [] rfl h

/-- Witness for C5 (amended) on an all-5xx run with budget 1. -/
theorem C5_witness :
    ((CallWithRetry 1 (fun _ => .response 503 true)).result = .exhausted ∨
     (CallWithRetry 1 (fun _ => .response 503 true)).result = .nilBodyPanic) ∧
    (CallWithRetry 1 (fun _ => .response 503 true)).sleeps =
      (CallWithRetry 1 (fun _ => .response 503 true)).attempts :=
  ⟨Or.inl rfl, C5_delay_after_every_transient_attempt 1 (fun _ => .response 503 true)
    (Or.inl rfl)⟩

/-- C9: when the status check fails (a non-2xx status), `DecodeResponse`
returns the status-based error and leaves the caller-supplied target exactly
as it was: the target is written only after the status check has
succeeded. -/
theorem C9_no_write_on_status_failure {α : Type} (dec : String → Option α)
    (resp : HTTPResponse) (v : α) (h : isSuccessStatus resp.status = false) :
    DecodeResponse dec resp v = (v, some (.statusErr resp.status)) := by
  simp [DecodeResponse, h]

/-- Witness for C9: a 404 response with a decoder that would overwrite the
target with 42 leaves the target at 7 and reports the status error. -/
theorem C9_witness :
    DecodeResponse (fun _ => some (42 : Nat)) ⟨404, "ok"⟩ 7 = (7, some (.statusErr 404)) :=
  C9_no_write_on_status_failure (fun _ => some (42 : Nat)) ⟨404, "ok"⟩ 7 (by decide)

end BlnkGo
